import Mathlib

/-!
Verification of the kunkin KP184 serial driver against its design
specification.  The driver (class `Kp184` plus `BackgroundMonitor`) is
shallowly embedded here: byte strings become `List Nat` with elements
below 256, the Modbus CRC-16 becomes a pure fold, the read/write
transactions become pure frame builders and decoders, and the sampler's
retry/tick logic becomes explicit state-passing functions.
-/

namespace Kunkin

/-- One inner-loop iteration of `Kp184._crc`: record the low bit, shift the
running value right by one, then XOR with 0xA001 when the recorded bit was
set (the Python code XORs with 0 otherwise). -/
def crcBit (r : Nat) : Nat :=
  (r >>> 1) ^^^ (if r &&& 1 = 1 then 0xA001 else 0)

/-- Absorb one input byte, as in `Kp184._crc`: XOR the byte into the running
value and run eight bit rounds. -/
def crcByte (r b : Nat) : Nat :=
  crcBit^[8] (r ^^^ b)

/-- The 16-bit running CRC value of `Kp184._crc`, starting from 0xFFFF. -/
def crcWord (byts : List Nat) : Nat :=
  byts.foldl crcByte 0xFFFF

/-- `Kp184._crc`: the final 16-bit value encoded as two little-endian bytes
(`int.to_bytes(length=2, byteorder="little")`). -/
def crc (byts : List Nat) : List Nat :=
  [crcWord byts % 256, crcWord byts / 256]

/-- Reference bit round, written from the claim's words: when the low bit is
set, shift right and XOR with 0xA001, else just shift right. -/
def crcBitRef (r : Nat) : Nat :=
  if r % 2 = 1 then r / 2 ^^^ 0xA001 else r / 2

/-- Reference byte absorption, written from the claim's words: XOR the input
byte into the low byte of the running value, then run eight bit rounds. -/
def crcByteRef (r b : Nat) : Nat :=
  crcBitRef^[8] (256 * (r / 256) + (r % 256 ^^^ b))

/-- Reference checksum, written from the claim's words: start from 0xFFFF,
absorb each byte, return the final 16-bit value as two little-endian bytes. -/
def crcRef (byts : List Nat) : List Nat :=
  let w := byts.foldl crcByteRef 0xFFFF
  [w % 256, w / 256]

theorem crcBit_eq_ref (r : Nat) : crcBit r = crcBitRef r := by
  unfold crcBit crcBitRef
  rw [Nat.and_one_is_mod, Nat.shiftRight_succ, Nat.shiftRight_zero]
  rcases Nat.mod_two_eq_zero_or_one r with h | h <;> simp [h]

/-- XORing a byte into a value touches only the low byte. -/
theorem xor_low_byte (s b : Nat) (hb : b < 256) :
    s ^^^ b = 256 * (s / 256) + (s % 256 ^^^ b) := by
  have hm : s % 256 < 256 := Nat.mod_lt _ (by norm_num)
  have hxl : s % 256 ^^^ b < 256 := by
    have := Nat.xor_lt_two_pow (n := 8) (by simpa using hm) (by simpa using hb)
    simpa using this
  apply Nat.eq_of_testBit_eq
  intro i
  have h256 : (256 : Nat) = 2 ^ 8 := by norm_num
  rw [h256]
  rw [Nat.testBit_mul_pow_two_add (s / 2 ^ 8) (by simpa [h256] using hxl) i]
  by_cases hi : i < 8
  · simp only [hi, if_pos]
    rw [Nat.testBit_xor, Nat.testBit_xor]
    have : (s % 2 ^ 8).testBit i = s.testBit i := by
      rw [Nat.testBit_mod_two_pow]
      simp [hi]
    rw [this]
  · simp only [hi, if_neg, Bool.false_eq_true, not_false_iff]
    have hbz : b.testBit i = false := by
      apply Nat.testBit_lt_two_pow
      calc b < 2 ^ 8 := by simpa using hb
        _ ≤ 2 ^ i := Nat.pow_le_pow_right (by norm_num) (by omega)
    rw [Nat.testBit_xor, hbz]
    have : (s / 2 ^ 8).testBit (i - 8) = s.testBit i := by
      rw [← Nat.shiftRight_eq_div_pow, Nat.testBit_shiftRight]
      congr 1
      omega
    rw [this]
    simp

theorem crcByte_eq_ref (s b : Nat) (hb : b < 256) :
    crcByte s b = crcByteRef s b := by
  unfold crcByte crcByteRef
  rw [← xor_low_byte s b hb]
  have hfn : crcBit = crcBitRef := funext crcBit_eq_ref
  rw [hfn]

/-- The CRC fold agrees with the reference fold on byte inputs. -/
theorem foldl_crcByte_eq_ref (byts : List Nat) (h : ∀ b ∈ byts, b < 256) :
    ∀ s, byts.foldl crcByte s = byts.foldl crcByteRef s := by
  induction byts with
  | nil => intro s; rfl
  | cons b l ih =>
    intro s
    simp only [List.foldl_cons]
    rw [crcByte_eq_ref s b (h b (by simp))]
    exact ih (fun x hx => h x (by simp [hx])) _

/-- C1: the checksum function is extensionally the standard Modbus CRC-16 as
stated in the claim: init 0xFFFF, per byte XOR into the low byte, eight
shift-right rounds XORing 0xA001 when the low bit was set, result encoded as
two little-endian bytes. -/
theorem crc_eq_crcRef (byts : List Nat) (h : ∀ b ∈ byts, b < 256) :
    crc byts = crcRef byts := by
  unfold crc crcRef crcWord
  rw [foldl_crcByte_eq_ref byts h]

/-- `Kp184._raise_checksum`: split the trailing two bytes as the received
CRC, recompute the CRC over the remainder, and compare.  `true` means the
check passes (no `ChecksumError` raised); Python's `response[-2:]` and
`response[:-2]` are modelled by `drop`/`take` at `length - 2`, which agrees
with Python slicing also on buffers shorter than two bytes. -/
def raiseChecksum (response : List Nat) : Bool :=
  let received := response.drop (response.length - 2)
  let expected := crc (response.take (response.length - 2))
  received == expected

theorem crcBit_xor (x y : Nat) : crcBit (x ^^^ y) = crcBit x ^^^ crcBit y := by
  unfold crcBit
  have hsh : (x ^^^ y) >>> 1 = x >>> 1 ^^^ y >>> 1 := by
    simp [Nat.shiftRight_succ, Nat.shiftRight_zero, Nat.xor_div_two]
  rw [hsh, Nat.and_one_is_mod, Nat.and_one_is_mod, Nat.and_one_is_mod]
  have hcond : ((x ^^^ y) % 2 = 1) ↔ ¬(x % 2 = 1 ↔ y % 2 = 1) :=
    Nat.xor_mod_two_eq_one
  rcases Nat.mod_two_eq_zero_or_one x with hx | hx <;>
    rcases Nat.mod_two_eq_zero_or_one y with hy | hy
  · rw [if_neg (by rw [hcond]; simp [hx, hy]), if_neg (by omega),
      if_neg (by omega), Nat.xor_zero, Nat.xor_zero, Nat.xor_zero]
  · rw [if_pos (by rw [hcond]; simp [hx, hy]), if_neg (by omega),
      if_pos hy, Nat.xor_zero, Nat.xor_assoc]
  · rw [if_pos (by rw [hcond]; simp [hx, hy]), if_pos hx,
      if_neg (by omega), Nat.xor_zero, Nat.xor_assoc,
      Nat.xor_comm (y >>> 1) 0xA001, ← Nat.xor_assoc]
  · rw [if_neg (by rw [hcond]; simp [hx, hy]), if_pos hx, if_pos hy,
      Nat.xor_zero, Nat.xor_assoc, Nat.xor_comm 0xA001 (y >>> 1 ^^^ 0xA001),
      Nat.xor_assoc, Nat.xor_self, Nat.xor_zero]

theorem crcBit_iter_xor (n x y : Nat) :
    crcBit^[n] (x ^^^ y) = crcBit^[n] x ^^^ crcBit^[n] y := by
  induction n generalizing x y with
  | zero => rfl
  | succ n ih =>
    rw [Function.iterate_succ_apply, Function.iterate_succ_apply,
      Function.iterate_succ_apply, crcBit_xor]
    exact ih _ _

theorem crcBit_lt (x : Nat) (h : x < 65536) : crcBit x < 65536 := by
  unfold crcBit
  have h1 : x >>> 1 < 32768 := by
    rw [Nat.shiftRight_succ, Nat.shiftRight_zero]
    omega
  by_cases hb : x &&& 1 = 1
  · rw [if_pos hb]
    have := Nat.xor_lt_two_pow (n := 16) (x := x >>> 1) (y := 0xA001)
      (by norm_num; omega) (by norm_num)
    norm_num at this
    exact this
  · rw [if_neg hb, Nat.xor_zero]
    omega

theorem crcBit_ne_zero (x : Nat) (hlt : x < 65536) (hne : x ≠ 0) :
    crcBit x ≠ 0 := by
  unfold crcBit
  have hx2 : x >>> 1 = x / 2 := by
    rw [Nat.shiftRight_succ, Nat.shiftRight_zero]
  rw [Nat.and_one_is_mod, hx2]
  rcases Nat.mod_two_eq_zero_or_one x with h | h
  · rw [if_neg (by omega), Nat.xor_zero]
    omega
  · rw [if_pos h]
    intro hz
    rw [Nat.xor_eq_zero] at hz
    omega

theorem crcBit_iter_lt_ne_zero (n x : Nat) (hlt : x < 65536) :
    crcBit^[n] x < 65536 ∧ (x ≠ 0 → crcBit^[n] x ≠ 0) := by
  induction n with
  | zero => exact ⟨hlt, fun h => h⟩
  | succ n ih =>
    rw [Function.iterate_succ_apply']
    exact ⟨crcBit_lt _ ih.1,
      fun hne => crcBit_ne_zero _ ih.1 (ih.2 hne)⟩

/-- XORing a difference into the running state before absorbing a byte is
the same as XORing the eight-round image of the difference afterwards. -/
theorem crcByte_xor_state (s d b : Nat) :
    crcByte (s ^^^ d) b = crcByte s b ^^^ crcBit^[8] d := by
  unfold crcByte
  rw [show s ^^^ d ^^^ b = s ^^^ b ^^^ d by
    rw [Nat.xor_assoc, Nat.xor_assoc, Nat.xor_comm d b]]
  exact crcBit_iter_xor 8 _ _

/-- XORing a difference into the absorbed byte behaves the same way. -/
theorem crcByte_xor_byte (s x d : Nat) :
    crcByte s (x ^^^ d) = crcByte s x ^^^ crcBit^[8] d := by
  unfold crcByte
  rw [← Nat.xor_assoc]
  exact crcBit_iter_xor 8 _ _

/-- Absorbing further bytes propagates a state difference `d` linearly:
each absorbed byte applies eight more bit rounds to the difference. -/
theorem foldl_crcByte_xor (l : List Nat) :
    ∀ s d, l.foldl crcByte (s ^^^ d) =
      l.foldl crcByte s ^^^ crcBit^[8 * l.length] d := by
  induction l with
  | nil => intro s d; simp
  | cons b l ih =>
    intro s d
    simp only [List.foldl_cons, List.length_cons]
    rw [crcByte_xor_state, ih, ← Function.iterate_add_apply, Nat.mul_succ]

/-- Flipping bits of one message byte shifts the final CRC word by the
image of the flip under the remaining bit rounds. -/
theorem crcWord_flip (l1 l2 : List Nat) (x d : Nat) :
    crcWord (l1 ++ (x ^^^ d) :: l2) =
      crcWord (l1 ++ x :: l2) ^^^ crcBit^[8 * (l2.length + 1)] d := by
  unfold crcWord
  rw [List.foldl_append, List.foldl_append, List.foldl_cons, List.foldl_cons,
    crcByte_xor_byte, foldl_crcByte_xor, ← Function.iterate_add_apply,
    Nat.mul_succ]

theorem crc_length (byts : List Nat) : (crc byts).length = 2 := rfl

theorem crc_inj_word (a b : List Nat) (h : crc a = crc b) :
    crcWord a = crcWord b := by
  unfold crc at h
  simp only [List.cons.injEq, and_true] at h
  omega

/-- The property packet of claim C2: appended-CRC verification succeeds,
and any single-bit flip in the message bytes or in the two CRC bytes makes
it fail. -/
def CrcRoundTrip (b : List Nat) : Prop :=
  raiseChecksum (b ++ crc b) = true ∧
  (∀ l1 x l2 j, b = l1 ++ x :: l2 → j < 8 →
    raiseChecksum ((l1 ++ (x ^^^ 2 ^ j) :: l2) ++ crc b) = false) ∧
  (∀ j, j < 8 →
    raiseChecksum (b ++ [crcWord b % 256 ^^^ 2 ^ j, crcWord b / 256]) = false) ∧
  (∀ j, j < 8 →
    raiseChecksum (b ++ [crcWord b % 256, crcWord b / 256 ^^^ 2 ^ j]) = false)

/-- Verification of a buffer `m ++ [c0, c1]` reduces to comparing `[c0, c1]`
with `crc m`. -/
theorem raiseChecksum_snoc2 (m : List Nat) (c0 c1 : Nat) :
    raiseChecksum (m ++ [c0, c1]) = ([c0, c1] == crc m) := by
  unfold raiseChecksum
  have hlen : (m ++ [c0, c1]).length - 2 = m.length := by simp
  rw [hlen, List.drop_left, List.take_left]

/-- C2: CRC round trip with single-bit-flip detection, for every byte
sequence: verifying the message with its appended CRC succeeds, while
flipping any single bit of any message byte, of the low CRC byte, or of the
high CRC byte makes verification fail. -/
theorem crc_round_trip_flip (b : List Nat) (_hb : ∀ x ∈ b, x < 256) :
    CrcRoundTrip b := by
  have hcrc : crc b = [crcWord b % 256, crcWord b / 256] := rfl
  refine ⟨?_, ?_, ?_, ?_⟩
  · rw [hcrc, raiseChecksum_snoc2, ← hcrc]
    simp
  · intro l1 x l2 j hsplit hj
    rw [hcrc, raiseChecksum_snoc2, beq_eq_false_iff_ne]
    intro heq
    have hcc : crc (l1 ++ (x ^^^ 2 ^ j) :: l2) = crc b := heq.symm.trans hcrc.symm
    have hw : crcWord (l1 ++ (x ^^^ 2 ^ j) :: l2) = crcWord b :=
      crc_inj_word _ _ hcc
    have hflip := crcWord_flip l1 l2 x (2 ^ j)
    rw [← hsplit, hw] at hflip
    have hD0 : crcBit^[8 * (l2.length + 1)] (2 ^ j) = 0 :=
      (Nat.xor_right_inj.mp ((Nat.xor_zero (crcWord b)).trans hflip)).symm
    have hlt : (2 : Nat) ^ j < 65536 := by
      calc (2 : Nat) ^ j < 2 ^ 16 := Nat.pow_lt_pow_right (by norm_num) (by omega)
        _ = 65536 := by norm_num
    exact (crcBit_iter_lt_ne_zero _ _ hlt).2 (Nat.two_pow_pos j).ne' hD0
  · intro j hj
    rw [raiseChecksum_snoc2, hcrc, beq_eq_false_iff_ne]
    intro h
    injection h with h1 h2
    have : (2 : Nat) ^ j = 0 :=
      Nat.xor_right_inj.mp (h1.trans (Nat.xor_zero _).symm)
    exact (Nat.two_pow_pos j).ne' this
  · intro j hj
    rw [raiseChecksum_snoc2, hcrc, beq_eq_false_iff_ne]
    intro h
    injection h with h1 h2
    injection h2 with h2 h3
    have : (2 : Nat) ^ j = 0 :=
      Nat.xor_right_inj.mp (h2.trans (Nat.xor_zero _).symm)
    exact (Nat.two_pow_pos j).ne' this

theorem crc_round_trip_flip_witness :
    raiseChecksum ([1, 2] ++ crc [1, 2]) = true ∧
    raiseChecksum (([] ++ (1 ^^^ 2 ^ 0) :: [2]) ++ crc [1, 2]) = false := by
  have h := crc_round_trip_flip [1, 2] (by decide)
  exact ⟨h.1, h.2.1 [] 1 [2] 0 rfl (by decide)⟩

theorem crc_eq_crcRef_witness : crc [0x01, 0x03] = crcRef [0x01, 0x03] :=
  crc_eq_crcRef [0x01, 0x03] (by decide)

/-- C4 counterexample: the two-byte buffer `FF FF` is shorter than every
expected response length (9, 8 or 37 bytes) yet passes checksum
verification, because `FF FF` is exactly the CRC of the empty prefix. -/
theorem short_buffer_passes_checksum :
    raiseChecksum [0xFF, 0xFF] = true ∧ [0xFF, 0xFF].length < 9 := by
  constructor
  · rfl
  · decide

/-- C4 (amended): every received buffer of fewer than two bytes — in
particular the empty buffer produced by a read timeout — fails checksum
verification. -/
theorem short_buffer_fails_checksum (response : List Nat)
    (h : response.length < 2) :
    raiseChecksum response = false := by
  match response, h with
  | [], _ => rfl
  | [x], _ => simp [raiseChecksum, crc]

theorem short_buffer_fails_checksum_witness :
    raiseChecksum [] = false :=
  short_buffer_fails_checksum [] (by decide)

/-- Python `int.to_bytes(length=n, byteorder="big")` for values below
`256 ^ n` (larger values raise `OverflowError` in the source). -/
def toBytesBE : Nat → Nat → List Nat
  | 0, _ => []
  | n + 1, v => toBytesBE n (v / 256) ++ [v % 256]

/-- Python `int.from_bytes(payload, byteorder="big")`. -/
def intFromBytesBE (l : List Nat) : Nat :=
  l.foldl (fun acc b => 256 * acc + b) 0

/-- The pre-CRC part of a read request built by `Kp184._modbus_read_unsafe`:
device byte 0x01, read function 0x03, big-endian register address, fixed
read length 0x0004. -/
def modbusReadMsg (address : Nat) : List Nat :=
  [0x01, 0x03] ++ toBytesBE 2 address ++ [0x00, 0x04]

/-- The full read request frame sent by `Kp184._modbus_read_unsafe`. -/
def modbusReadFrame (address : Nat) : List Nat :=
  modbusReadMsg address ++ crc (modbusReadMsg address)

/-- The response handling of `Kp184._modbus_read_unsafe`: verify the CRC
(`none` models a raised `ChecksumError`), read the payload length from byte
2, slice the payload, unconditionally drop its first byte when the register
address is 0x0110 (the documented quirk), and convert big-endian. -/
def modbusReadDecode (address : Nat) (response : List Nat) : Option Nat :=
  if raiseChecksum response then
    let payloadLength := response.getD 2 0
    let sliced := (response.drop 3).take payloadLength
    let payload := if address = 0x0110 then sliced.drop 1 else sliced
    some (intFromBytesBE payload)
  else none

/-- The pre-CRC part of a write request built by
`Kp184._modbus_write_unsafe`: device byte 0x01, write function 0x06,
big-endian register address, constant bytes 0x00 0x01 0x04, big-endian
32-bit value. -/
def modbusWriteMsg (address value : Nat) : List Nat :=
  [0x01, 0x06] ++ toBytesBE 2 address ++ [0x00, 0x01, 0x04] ++ toBytesBE 4 value

/-- The full write request frame sent by `Kp184._modbus_write_unsafe`. -/
def modbusWriteFrame (address value : Nat) : List Nat :=
  modbusWriteMsg address value ++ crc (modbusWriteMsg address value)

/-- The acknowledgement checks of `Kp184._modbus_write_unsafe`: the readback
must pass the CRC check, echo the register address in bytes 2-3 (big endian)
and echo `value & 0xFFFF` in bytes 4-5 (big endian); `false` models a raised
`ChecksumError`. -/
def modbusWriteAckOk (address value : Nat) (readback : List Nat) : Bool :=
  raiseChecksum readback &&
  (intFromBytesBE ((readback.drop 2).take 2) == address) &&
  (intFromBytesBE ((readback.drop 4).take 2) == (value &&& 0xFFFF))

/-- C3: a write transaction raises the checksum-mismatch error exactly when
the acknowledgement's trailing CRC does not validate, or the echoed
register address (bytes 2-3, big endian) differs from the address sent, or
the echoed 16-bit value (bytes 4-5, big endian) differs from the low 16
bits of the 32-bit value sent.  The write path itself contains no retry:
`modbusWriteAckOk` is the whole acknowledgement check and its failure is
the raised error. -/
theorem write_ack_fails_iff (address value : Nat) (readback : List Nat)
    (hlen : readback.length = 8) :
    modbusWriteAckOk address value readback = false ↔
      (raiseChecksum readback = false ∨
       256 * readback.getD 2 0 + readback.getD 3 0 ≠ address ∨
       256 * readback.getD 4 0 + readback.getD 5 0 ≠ value % 65536) := by
  match readback, hlen with
  | [r0, r1, r2, r3, r4, r5, r6, r7], _ =>
    have hmod : value &&& 0xFFFF = value % 65536 := by
      have := Nat.and_pow_two_sub_one_eq_mod value 16
      norm_num at this
      exact this
    unfold modbusWriteAckOk
    rw [hmod]
    simp only [List.drop, List.take, List.getD]
    cases h : raiseChecksum [r0, r1, r2, r3, r4, r5, r6, r7]
    · simp [intFromBytesBE, List.foldl]
    · simp [intFromBytesBE, List.foldl]
      omega

theorem write_ack_fails_iff_witness :
    modbusWriteAckOk 0x010E 1 [1, 6, 1, 14, 0, 2, 0, 0] = false ↔
      (raiseChecksum [1, 6, 1, 14, 0, 2, 0, 0] = false ∨
       256 * [1, 6, 1, 14, 0, 2, 0, 0].getD 2 0 +
         [1, 6, 1, 14, 0, 2, 0, 0].getD 3 0 ≠ 0x010E ∨
       256 * [1, 6, 1, 14, 0, 2, 0, 0].getD 4 0 +
         [1, 6, 1, 14, 0, 2, 0, 0].getD 5 0 ≠ 1 % 65536) :=
  write_ack_fails_iff 0x010E 1 [1, 6, 1, 14, 0, 2, 0, 0] (by decide)

/-- C10: clearing the watt-hour accumulator is literally the same operation
as clearing the ampere-hour accumulator (`clear_wh = clear_ah` in the
source): both issue the single write transaction of value 0 to register
0x0148. -/
def clearAhFrame : List Nat := modbusWriteFrame 0x148 0

/-- `Kp184.clear_wh` is defined as `clear_ah` itself. -/
def clearWhFrame : List Nat := clearAhFrame

/-- C10: `clear_wh` and `clear_ah` issue the identical single write frame,
namely the write of value 0 to register 0x0148. -/
theorem clear_wh_eq_clear_ah :
    clearWhFrame = clearAhFrame ∧
    clearWhFrame = modbusWriteFrame 0x0148 0 ∧
    clearWhFrame =
      [0x01, 0x06, 0x01, 0x48, 0x00, 0x01, 0x04, 0, 0, 0, 0] ++
        crc [0x01, 0x06, 0x01, 0x48, 0x00, 0x01, 0x04, 0, 0, 0, 0] := by
  exact ⟨rfl, rfl, rfl⟩

/-- `Kp184.MODES`: the mode enumeration, indexed by the device's mode
field. -/
def MODES : List String := ["CV", "CC", "CR", "CW"]

/-- `Kp184.BUZZ_MODES`: the buzzer mode enumeration. -/
def BUZZ_MODES : List String := ["ONE", "LAST", "LEVEL"]

/-- The decoded status block of `Kp184.get_status_block_unsafe` (the Python
dict, as a record).  Scaled quantities are modelled as exact rationals. -/
structure StatusBlock where
  outputOn : Bool
  sense : String
  mode : String
  battery : Bool
  voltage : Rat
  current : Rat
  setpoint : Rat
  slopeUp : Rat
  slopeDown : Rat
  batteryHalfCurrent : Bool
  batteryDisplayUnit : String
  batteryBuzzMode : String
  ah : Rat
  wh : Rat

/-- The pre-CRC part of the status-block request: device byte 0x01, read
function 0x03, the fixed long status-block address 0x0301, and the special
zero length field. -/
def statusReadMsg : List Nat := [0x01, 0x03] ++ toBytesBE 2 0x301 ++ [0x00, 0x00]

/-- The full status-block request frame sent by
`Kp184.get_status_block_unsafe`. -/
def statusReadFrame : List Nat := statusReadMsg ++ crc statusReadMsg

/-- The expected status-block response length, `serial.read(23 + 14)` in the
source. -/
def statusReadLen : Nat := 23 + 14

/-- The decode of `Kp184.get_status_block_unsafe` after the CRC check
(`none` models a raised `ChecksumError`).  Bit extractions mirror the
Python reversed-binary-string tricks: `r3 % 2` is bit 0, `r3 / 2 % 2` bit 1
and `r3 / 4 % 2` bit 2 of byte 3.  The Python mode lookup is
`MODES[2*bit1 + bit2 - 1]` with negative indexing, so index 0 wraps to the
last element; `(v + 3) % 4` reproduces that for the four-element list. -/
def getStatusBlock (response : List Nat) : Option StatusBlock :=
  if raiseChecksum response then
    let r3 := response.getD 3 0
    let r4 := response.getD 4 0
    some {
      outputOn := r3 % 2 == 1
      sense := if r3 &&& 0x8 ≠ 0 then "Remote" else "Local"
      mode := MODES.getD ((2 * (r3 / 2 % 2) + r3 / 4 % 2 + 3) % 4) ""
      battery := r4 &&& 0x4 != 0
      voltage := (intFromBytesBE ((response.drop 5).take 3) : Rat) / 1000
      current := (intFromBytesBE ((response.drop 8).take 3) : Rat) / 1000
      setpoint := (intFromBytesBE ((response.drop 11).take 3) : Rat) / 1000
      slopeUp := (intFromBytesBE ((response.drop 14).take 2) : Rat) / 10
      slopeDown := (intFromBytesBE ((response.drop 16).take 2) : Rat) / 10
      batteryHalfCurrent := response.getD 21 0 &&& 0x1 != 0
      batteryDisplayUnit := if response.getD 22 0 &&& 0x1 ≠ 0 then "WH" else "AH"
      batteryBuzzMode := BUZZ_MODES.getD (response.getD 23 0) ""
      ah := (intFromBytesBE ((response.drop 27).take 4) : Rat) / 60 / 60 / 1000
      wh := (intFromBytesBE ((response.drop 31).take 4) : Rat) / 60 / 60 / 1000 }
  else none

theorem beq_mod_two_eq_testBit (r : Nat) : (r % 2 == 1) = r.testBit 0 := by
  rw [Nat.testBit_zero]
  rcases Nat.mod_two_eq_zero_or_one r with h | h <;> simp [h]

theorem and_eight_ne_iff (r : Nat) : (r &&& 8 ≠ 0) ↔ r.testBit 3 = true := by
  have h := Nat.and_two_pow r 3
  norm_num at h
  rw [h]
  cases r.testBit 3 <;> simp

theorem and_four_bne (r : Nat) : (r &&& 4 != 0) = r.testBit 2 := by
  have h := Nat.and_two_pow r 2
  norm_num at h
  rw [h]
  cases r.testBit 2 <;> simp

/-- The field layout asserted by claim C5, stated in the claim's own
vocabulary: bit positions via `Nat.testBit`, 3-byte/2-byte/4-byte
big-endian integers at the stated offsets, milli/deci scaling, and
accumulator conversion by dividing by 3600 and by 1000. -/
def StatusDecodeClaim (response : List Nat) : Prop :=
  ∃ sb, getStatusBlock response = some sb ∧
    sb.outputOn = (response.getD 3 0).testBit 0 ∧
    sb.sense = (if (response.getD 3 0).testBit 3 then "Remote" else "Local") ∧
    sb.mode ∈ MODES ∧
    sb.battery = (response.getD 4 0).testBit 2 ∧
    sb.voltage = (intFromBytesBE ((response.drop 5).take 3) : Rat) / 1000 ∧
    sb.current = (intFromBytesBE ((response.drop 8).take 3) : Rat) / 1000 ∧
    sb.setpoint = (intFromBytesBE ((response.drop 11).take 3) : Rat) / 1000 ∧
    sb.slopeUp = (intFromBytesBE ((response.drop 14).take 2) : Rat) / 10 ∧
    sb.slopeDown = (intFromBytesBE ((response.drop 16).take 2) : Rat) / 10 ∧
    sb.batteryDisplayUnit =
      (if (response.getD 22 0).testBit 0 then "WH" else "AH") ∧
    sb.batteryBuzzMode = BUZZ_MODES.getD (response.getD 23 0) "" ∧
    sb.ah = (intFromBytesBE ((response.drop 27).take 4) : Rat) / 3600 / 1000 ∧
    sb.wh = (intFromBytesBE ((response.drop 31).take 4) : Rat) / 3600 / 1000

/-- C5: the status-block read issues the single fixed-address extended read
(address 0x0301, zero length field), expects exactly 37 response bytes, and
after CRC verification decodes the stated layout: output-enabled bit,
sense-mode bit, a two-bit mode index mapping into the four modes, battery
bit, 3-byte big-endian voltage/current/set-point over 1000, 2-byte
big-endian slew rates over 10, display-unit bit, buzzer byte, and 4-byte
big-endian accumulators divided by 3600 and by 1000. -/
theorem status_block_decode (response : List Nat)
    (hcrc : raiseChecksum response = true) :
    statusReadLen = 37 ∧
    statusReadFrame =
      [0x01, 0x03, 0x03, 0x01, 0x00, 0x00] ++
        crc [0x01, 0x03, 0x03, 0x01, 0x00, 0x00] ∧
    StatusDecodeClaim response := by
  refine ⟨rfl, rfl, ?_⟩
  unfold StatusDecodeClaim getStatusBlock
  rw [hcrc]
  simp only [if_pos]
  refine ⟨_, rfl, ?_, ?_, ?_, ?_, rfl, rfl, rfl, rfl, rfl, ?_, rfl, ?_, ?_⟩
  · exact beq_mod_two_eq_testBit (response.getD 3 0)
  · show (if response.getD 3 0 &&& 8 ≠ 0 then "Remote" else "Local") =
      (if (response.getD 3 0).testBit 3 then "Remote" else "Local")
    by_cases h : (response.getD 3 0).testBit 3
    · rw [if_pos ((and_eight_ne_iff _).mpr h), if_pos h]
    · rw [if_neg (fun hc => h ((and_eight_ne_iff _).mp hc)), if_neg h]
  · show MODES.getD
        ((2 * (response.getD 3 0 / 2 % 2) + response.getD 3 0 / 4 % 2 + 3) % 4)
        "" ∈ MODES
    have h4 : (2 * (response.getD 3 0 / 2 % 2) +
        response.getD 3 0 / 4 % 2 + 3) % 4 = 0 ∨
        (2 * (response.getD 3 0 / 2 % 2) +
          response.getD 3 0 / 4 % 2 + 3) % 4 = 1 ∨
        (2 * (response.getD 3 0 / 2 % 2) +
          response.getD 3 0 / 4 % 2 + 3) % 4 = 2 ∨
        (2 * (response.getD 3 0 / 2 % 2) +
          response.getD 3 0 / 4 % 2 + 3) % 4 = 3 := by
      omega
    rcases h4 with h | h | h | h <;> rw [h] <;> decide
  · exact and_four_bne (response.getD 4 0)
  · show (if response.getD 22 0 &&& 1 ≠ 0 then "WH" else "AH") =
      (if (response.getD 22 0).testBit 0 then "WH" else "AH")
    rw [Nat.and_one_is_mod, Nat.testBit_zero]
    rcases Nat.mod_two_eq_zero_or_one (response.getD 22 0) with h | h <;>
      simp [h]
  · show (intFromBytesBE ((response.drop 27).take 4) : Rat) / 60 / 60 / 1000 =
      (intFromBytesBE ((response.drop 27).take 4) : Rat) / 3600 / 1000
    rw [show (3600 : Rat) = 60 * 60 by norm_num, ← div_div]
  · show (intFromBytesBE ((response.drop 31).take 4) : Rat) / 60 / 60 / 1000 =
      (intFromBytesBE ((response.drop 31).take 4) : Rat) / 3600 / 1000
    rw [show (3600 : Rat) = 60 * 60 by norm_num, ← div_div]

theorem status_block_decode_witness :
    statusReadLen = 37 ∧
    statusReadFrame =
      [0x01, 0x03, 0x03, 0x01, 0x00, 0x00] ++
        crc [0x01, 0x03, 0x03, 0x01, 0x00, 0x00] ∧
    StatusDecodeClaim (List.replicate 35 0 ++ crc (List.replicate 35 0)) :=
  status_block_decode (List.replicate 35 0 ++ crc (List.replicate 35 0))
    (by rw [show crc (List.replicate 35 0) =
          [crcWord (List.replicate 35 0) % 256,
           crcWord (List.replicate 35 0) / 256] from rfl,
        raiseChecksum_snoc2]
        exact beq_self_eq_true (crc (List.replicate 35 0)))

/-- The expected single-register read response length, `serial.read(9)` in
the source. -/
def modbusReadRespLen : Nat := 9

/-- C6: a single-register read sends exactly the frame
`[addr][func=0x03][register BE][len=0x0004][crc LE]`; after CRC
verification of the response it takes the payload whose length is byte 2
and converts it big-endian, and for register 0x0110 — and only for it — it
drops the payload's leading byte first. -/
theorem modbus_read_behavior (address : Nat) (response : List Nat)
    (ha : address < 65536) (hcrc : raiseChecksum response = true) :
    modbusReadFrame address =
      [0x01, 0x03, address / 256, address % 256, 0x00, 0x04] ++
        crc [0x01, 0x03, address / 256, address % 256, 0x00, 0x04] ∧
    modbusReadRespLen = 9 ∧
    (address ≠ 0x0110 →
      modbusReadDecode address response =
        some (intFromBytesBE ((response.drop 3).take (response.getD 2 0)))) ∧
    modbusReadDecode 0x0110 response =
      some (intFromBytesBE
        (((response.drop 3).take (response.getD 2 0)).drop 1)) := by
  have h2 : toBytesBE 2 address = [address / 256, address % 256] := by
    have h1 : address / 256 % 256 = address / 256 := Nat.mod_eq_of_lt (by omega)
    simp [toBytesBE, h1]
  refine ⟨?_, rfl, ?_, ?_⟩
  · unfold modbusReadFrame modbusReadMsg
    rw [h2]
    simp
  · intro hne
    unfold modbusReadDecode
    rw [hcrc]
    simp [hne]
  · unfold modbusReadDecode
    rw [hcrc]
    simp

theorem modbus_read_behavior_witness :
    (0x0112 : Nat) < 65536 ∧
    raiseChecksum ([1, 3, 4, 0, 0, 0, 100] ++ crc [1, 3, 4, 0, 0, 0, 100]) =
      true ∧
    modbusReadDecode 0x0112
        ([1, 3, 4, 0, 0, 0, 100] ++ crc [1, 3, 4, 0, 0, 0, 100]) =
      some (intFromBytesBE
        ((([1, 3, 4, 0, 0, 0, 100] ++ crc [1, 3, 4, 0, 0, 0, 100]).drop 3).take
          (([1, 3, 4, 0, 0, 0, 100] ++
            crc [1, 3, 4, 0, 0, 0, 100]).getD 2 0))) := by
  have hcrc : raiseChecksum
      ([1, 3, 4, 0, 0, 0, 100] ++ crc [1, 3, 4, 0, 0, 0, 100]) = true := by
    rw [show crc [1, 3, 4, 0, 0, 0, 100] =
        [crcWord [1, 3, 4, 0, 0, 0, 100] % 256,
         crcWord [1, 3, 4, 0, 0, 0, 100] / 256] from rfl,
      raiseChecksum_snoc2]
    exact beq_self_eq_true (crc [1, 3, 4, 0, 0, 0, 100])
  exact ⟨by norm_num, hcrc,
    (modbus_read_behavior 0x0112 _ (by norm_num) hcrc).2.2.1 (by norm_num)⟩

/-- Modelled from the spec: the `tenacity` retry combinator
(`retry=retry_if_exception_type(ChecksumError), stop=stop_after_attempt(n)`)
applied to `BackgroundMonitor._refresh`; the library itself is an external
dependency whose code is not part of this repository.  `outcome i` is the
result of the i-th underlying status-block read (`true` = success, `false` =
`ChecksumError`); attempts run in order until one succeeds or the attempt
budget is exhausted, in which case the failure propagates. -/
def retryRun (outcome : Nat → Bool) : Nat → Nat → Bool
  | _, 0 => false
  | i, n + 1 => if outcome i then true else retryRun outcome (i + 1) n

/-- `BackgroundMonitor._refresh`: the status-block read wrapped in retry
with an attempt cap of exactly 10. -/
def refreshRetry (outcome : Nat → Bool) : Bool := retryRun outcome 0 10

theorem retryRun_true_iff (outcome : Nat → Bool) (n : Nat) :
    ∀ i, retryRun outcome i n = true ↔ ∃ j, j < n ∧ outcome (i + j) = true := by
  induction n with
  | zero =>
    intro i
    simp [retryRun]
  | succ n ih =>
    intro i
    unfold retryRun
    by_cases h : outcome i = true
    · rw [if_pos h]
      constructor
      · intro _
        exact ⟨0, by omega, by simpa using h⟩
      · intro _
        rfl
    · rw [if_neg h, ih]
      constructor
      · rintro ⟨j, hj, hsj⟩
        exact ⟨j + 1, by omega, by rw [show i + (j + 1) = i + 1 + j by omega]; exact hsj⟩
      · rintro ⟨j, hj, hsj⟩
        match j with
        | 0 => exact absurd (by simpa using hsj) h
        | j + 1 =>
          exact ⟨j, by omega, by rw [show i + 1 + j = i + (j + 1) by omega]; exact hsj⟩

/-- C7: the sampler's status-block refresh retries on checksum failure with
an attempt cap of exactly 10: failing at most 9 times and then succeeding
makes the refresh succeed, while failing all 10 attempts propagates the
failure (halting the sampler loop). -/
theorem refresh_retry_cap (outcome : Nat → Bool) (k : Nat) :
    (k ≤ 9 → (∀ i, i < k → outcome i = false) → outcome k = true →
      refreshRetry outcome = true) ∧
    ((∀ i, i < 10 → outcome i = false) → refreshRetry outcome = false) := by
  constructor
  · intro hk _hfail hsucc
    rw [refreshRetry, retryRun_true_iff]
    exact ⟨k, by omega, by simpa using hsucc⟩
  · intro hall
    cases h : refreshRetry outcome with
    | false => rfl
    | true =>
      rw [refreshRetry, retryRun_true_iff] at h
      obtain ⟨j, hj, hsj⟩ := h
      rw [Nat.zero_add] at hsj
      rw [hall j hj] at hsj
      cases hsj

theorem refresh_retry_cap_witness :
    refreshRetry (fun i => decide (9 ≤ i)) = true ∧
    refreshRetry (fun _ => false) = false :=
  ⟨(refresh_retry_cap (fun i => decide (9 ≤ i)) 9).1 (by omega)
      (fun i hi => by simp; omega) (by simp),
    (refresh_retry_cap (fun _ => false) 0).2 (fun i _ => rfl)⟩

/-- The sampler state read by `BackgroundMonitor._interwaller`: the tick
index, the recorded start instant and the configured interval (both in
seconds, modelled as exact rationals). -/
structure TickState where
  index : Nat
  workerStart : Rat
  intervalS : Rat

/-- The externally visible effect of one `_interwaller` call. -/
inductive TickAction where
  | warn : TickAction
  | sleepFor : Rat → TickAction
deriving DecidableEq

/-- `BackgroundMonitor._interwaller`: increment the tick index, compute the
next deadline as `worker_start + index * interval_s`, and either warn (when
the deadline is already past) or sleep for the remaining time. -/
def interwaller (s : TickState) (now : Rat) : TickState × TickAction :=
  let index := s.index + 1
  let nextSampleTime := s.workerStart + (index : Rat) * s.intervalS
  let sleepToNext := nextSampleTime - now
  (⟨index, s.workerStart, s.intervalS⟩,
   if sleepToNext < 0 then TickAction.warn else TickAction.sleepFor sleepToNext)

/-- C8: each `_interwaller` call increments the tick index by exactly one,
leaves the recorded start instant and interval unchanged, computes the
deadline as `start + new_index * interval` (anchored to the start instant,
independent of the current time), warns and does not sleep exactly when
that deadline is already in the past, and otherwise sleeps exactly until
the deadline. -/
theorem interwaller_schedule (s : TickState) (now : Rat) :
    (interwaller s now).1.index = s.index + 1 ∧
    (interwaller s now).1.workerStart = s.workerStart ∧
    (interwaller s now).1.intervalS = s.intervalS ∧
    (interwaller s now).2 =
      (if s.workerStart + ((s.index + 1 : Nat) : Rat) * s.intervalS < now
       then TickAction.warn
       else TickAction.sleepFor
         (s.workerStart + ((s.index + 1 : Nat) : Rat) * s.intervalS - now)) ∧
    (∀ d, (interwaller s now).2 = TickAction.sleepFor d →
      now + d = s.workerStart + ((s.index + 1 : Nat) : Rat) * s.intervalS) := by
  have hiff : s.workerStart + ((s.index + 1 : Nat) : Rat) * s.intervalS - now < 0 ↔
      s.workerStart + ((s.index + 1 : Nat) : Rat) * s.intervalS < now := by
    constructor <;> intro h <;> linarith
  refine ⟨rfl, rfl, rfl, ?_, ?_⟩
  · show (if s.workerStart + ((s.index + 1 : Nat) : Rat) * s.intervalS - now < 0
        then TickAction.warn
        else TickAction.sleepFor
          (s.workerStart + ((s.index + 1 : Nat) : Rat) * s.intervalS - now)) = _
    by_cases h : s.workerStart + ((s.index + 1 : Nat) : Rat) * s.intervalS < now
    · rw [if_pos (hiff.mpr h), if_pos h]
    · rw [if_neg (fun hc => h (hiff.mp hc)), if_neg h]
  · intro d hd
    have hd2 : (if s.workerStart +
          ((s.index + 1 : Nat) : Rat) * s.intervalS - now < 0
        then TickAction.warn
        else TickAction.sleepFor
          (s.workerStart + ((s.index + 1 : Nat) : Rat) * s.intervalS - now)) =
        TickAction.sleepFor d := hd
    by_cases h : s.workerStart +
        ((s.index + 1 : Nat) : Rat) * s.intervalS - now < 0
    · rw [if_pos h] at hd2
      cases hd2
    · rw [if_neg h] at hd2
      cases hd2
      linarith

theorem interwaller_schedule_witness :
    (0 : Rat) + (0 + ((0 + 1 : Nat) : Rat) * 1 - 0) =
      0 + ((0 + 1 : Nat) : Rat) * 1 :=
  (interwaller_schedule ⟨0, 0, 1⟩ 0).2.2.2.2
    (0 + ((0 + 1 : Nat) : Rat) * 1 - 0)
    (by norm_num [interwaller])

/-- The observable steps of `BackgroundMonitor.__enter__`, in program
order. -/
inductive EnterEvent where
  | statusRead : EnterEvent
  | logOpened : EnterEvent
  | headerWritten : EnterEvent
  | threadCreated : EnterEvent
  | startRecorded : EnterEvent
  | threadStarted : EnterEvent
deriving DecidableEq

/-- `BackgroundMonitor.__enter__` as an event trace: one synchronous
refresh first (an exception there, modelled by `read1ok = false`, aborts
with nothing else done); then optional log-file opening with a header only
when the file did not previously exist; then thread creation, a second
refresh, recording of the start instant and the thread start.  The `Bool`
result is `true` when the transition completed. -/
def enterTrace (read1ok read2ok hasLog fileExisted : Bool) :
    List EnterEvent × Bool :=
  if read1ok = false then ([EnterEvent.statusRead], false)
  else
    let t :=
      [EnterEvent.statusRead] ++
        (if hasLog then
          [EnterEvent.logOpened] ++
            (if fileExisted then [] else [EnterEvent.headerWritten])
        else []) ++
        [EnterEvent.threadCreated, EnterEvent.statusRead]
    if read2ok = false then (t, false)
    else (t ++ [EnterEvent.startRecorded, EnterEvent.threadStarted], true)

/-- C9: on the Idle-to-Running transition the first action is a synchronous
status read; if it fails the transition aborts before any log or thread
event; the header is written exactly when a log file is configured and the
destination did not previously exist (and the first read succeeded); a
completed transition ends by recording the start instant and then starting
the worker; and the worker is only ever started on a completed
transition. -/
theorem enter_transition (r1 r2 hl fe : Bool) :
    (r1 = false → enterTrace r1 r2 hl fe = ([EnterEvent.statusRead], false)) ∧
    ((enterTrace r1 r2 hl fe).1.head? = some EnterEvent.statusRead) ∧
    (EnterEvent.headerWritten ∈ (enterTrace r1 r2 hl fe).1 ↔
      (r1 = true ∧ hl = true ∧ fe = false)) ∧
    ((enterTrace r1 r2 hl fe).2 = true →
      (enterTrace r1 r2 hl fe).1.drop
          ((enterTrace r1 r2 hl fe).1.length - 2) =
        [EnterEvent.startRecorded, EnterEvent.threadStarted]) ∧
    (EnterEvent.threadStarted ∈ (enterTrace r1 r2 hl fe).1 →
      (enterTrace r1 r2 hl fe).2 = true) := by
  cases r1 <;> cases r2 <;> cases hl <;> cases fe <;> decide

theorem enter_transition_witness :
    enterTrace false true true false = ([EnterEvent.statusRead], false) :=
  (enter_transition false true true false).1 rfl

end Kunkin
